import Mathlib

/-!
Verification development for kano_settings/boot_config.py.

The file content model: a config file on disk is an ordered list of text
lines (the granularity at which read_file_contents_as_lines and all the
writing code operate).  A missing file reads as `none`.  The Document
Engine (BootConfigParser / Filter) is an external collaborator and is kept
opaque: operations that delegate to it are parameterized by an arbitrary
engine function.
-/

namespace KanoBoot

/-- The NOOBS sentinel line (module constant noobs_line). -/
def noobs_line : String := "# NOOBS Auto-generated Settings:"

/-- The fixed required-marker set of BootConfig.check_corrupt (must_contain). -/
def must_contain : List String := ["dtparam"]

/-- Python substring test (needle in hay) over char lists. -/
def charsContain (needle : List Char) : List Char → Bool
  | [] => needle.isEmpty
  | c :: cs => needle.isPrefixOf (c :: cs) || charsContain needle cs

/-- Python substring test on strings: does needle occur inside hay? -/
def occursIn (needle hay : String) : Bool :=
  charsContain needle.data hay.data

/-- Result of reading a config file path: the file may be absent,
present but unreadable, or readable with the given stripped lines. -/
inductive FileRead
  | absent
  | unreadable
  | lines (ls : List String)

/-- BootConfig.check_corrupt: missing file is corrupt; an unreadable file
(the bare except around the read) is corrupt; otherwise the file is corrupt
unless every marker of must_contain occurs in at least one line
(found == must_contain). -/
def check_corrupt : FileRead → Bool
  | .absent => true
  | .unreadable => true
  | .lines ls =>
    if must_contain.all (fun m => ls.any (fun l => occursIn m l)) then false
    else true

/-- An opaque Document Engine filter selector (boot_config_filter.Filter);
the core forwards it unchanged. -/
inductive Filter
  | ALL
  | other (n : Nat)
deriving DecidableEq

/-- A dynamically-typed value returned by BootConfig.get_value: either the
literal integer 0 (the empty-file early return) or whatever the Document
Engine produced. -/
inductive PyVal
  | int (n : Int)
  | engineVal (v : Nat)
deriving DecidableEq

/-- read_file_contents_as_lines collapsed to lines: a missing file (none)
behaves as the falsy value None, i.e. as no lines. -/
def linesOf (c : Option (List String)) : List String := c.getD []

/-- BootConfig.get_value: returns the integer 0 when the read yields no
lines, otherwise delegates to the Document Engine (parse + get), which is
the opaque parameter eget. -/
def get_value (eget : String → Filter → Bool → Bool → List String → PyVal)
    (name : String) (cf : Filter) (fallback ignoreComments : Bool)
    (content : Option (List String)) : PyVal :=
  let lines := linesOf content
  if lines.isEmpty then .int 0
  else eget name cf fallback ignoreComments lines

/-- The full annotation line written by BootConfig.set_comment. -/
def comment_str_full (name value : String) : String :=
  "### " ++ name ++ ": " ++ value

/-- The name pattern BootConfig.set_comment strips from existing lines. -/
def comment_str_name (name : String) : String :=
  "### " ++ name

/-- The body loop of BootConfig.set_comment: keep each line unless the
pattern occurs in it (the continue branch). -/
def set_comment_body (pat : String) : List String → List String
  | [] => []
  | l :: ls =>
    if occursIn pat l then set_comment_body pat ls
    else l :: set_comment_body pat ls

/-- BootConfig.set_comment as a content transform: no write when the file
has no lines; otherwise the file is rewritten with the full annotation
first and every surviving old line after it. -/
def set_comment (name value : String) (content : Option (List String)) :
    Option (List String) :=
  let lines := linesOf content
  if lines.isEmpty then content
  else some (comment_str_full name value ::
    set_comment_body (comment_str_name name) lines)

/-- The writing loop of BootConfig._remove_noobs_defaults: write each line
until the sentinel is met (break), dropping the sentinel and everything
after it. -/
def lines_before_sentinel : List String → List String
  | [] => []
  | l :: ls =>
    if l = noobs_line then []
    else l :: lines_before_sentinel ls

/-! ## The transaction state machine (ConfigTransaction)

Paths: the Target Path of the transaction, the staged temporary files
(identified by the number the name generator produced), and the packaged
default document. -/

inductive FPath
  | target
  | tmp (n : Nat)
  | defaultCfg
deriving DecidableEq, Repr

/-- Observable filesystem effects of an operation, in program order:
a truncating rewrite of a whole file, a copy (shutil.copy2), the commit
rename (shutil.move) and a deletion (os.remove). -/
inductive Ev
  | write (p : FPath) (c : List String)
  | copy (src dst : FPath)
  | rename (src dst : FPath)
  | remove (p : FPath)
deriving DecidableEq, Repr

/-- A ConfigTransaction together with the files it can touch.
state, lock, tempPath mirror the attributes of the same names; cfgPath is
temp_config.path (the path the accessor currently operates on); target and
tmps are the on-disk contents of the Target Path and of the staged files;
nextTmp feeds the unique-name generator of NamedTemporaryFile; dryRun is
the module-level dry_run flag; events is the trace of filesystem effects. -/
structure Sys where
  state : Nat
  lock : Bool
  tempPath : Option Nat
  cfgPath : FPath
  target : Option (List String)
  tmps : Nat → Option (List String)
  nextTmp : Nat
  dryRun : Bool
  events : List Ev

/-- Read a path of the model filesystem (read_file_contents_as_lines:
none when the file is absent). The packaged default document dflt is a
fixed existing file. -/
def readPath (dflt : List String) (s : Sys) : FPath → Option (List String)
  | .target => s.target
  | .tmp n => s.tmps n
  | .defaultCfg => some dflt

/-- A truncating whole-file rewrite (open_locked(path, w) + write + fsync),
recorded in the event trace. The packaged default is never written by the
code, so that branch is inert. -/
def writePath (s : Sys) (p : FPath) (c : List String) : Sys :=
  match p with
  | .target =>
    { s with target := some c, events := s.events ++ [.write .target c] }
  | .tmp n =>
    { s with tmps := fun m => if m = n then some c else s.tmps m,
             events := s.events ++ [.write (.tmp n) c] }
  | .defaultCfg => s

/-- ConfigTransaction.__init__ followed by its set_state_idle: a fresh
transaction on a Target Path currently holding tgt. -/
def init (tgt : Option (List String)) : Sys :=
  { state := 0, lock := false, tempPath := none, cfgPath := .target,
    target := tgt, tmps := fun _ => none, nextTmp := 0, dryRun := false,
    events := [] }

/-- The module-level set_dry_run(): flips the process-wide dry_run flag. -/
def set_dry_run (s : Sys) : Sys := { s with dryRun := true }

/-- Helper: the path temp_config points at according to temp_path
(used to state the state-2 branch of valid_state). -/
def tmpOf : Option Nat → FPath
  | some n => .tmp n
  | none => .target

/-- ConfigTransaction.valid_state: the validity condition the code
documents for each state (lock None/held, temp_config.path against
path/temp_path, temp_path None or set). -/
def valid_state (s : Sys) : Bool :=
  match s.state with
  | 0 => !s.lock && decide (s.cfgPath = .target) && decide (s.tempPath = none)
  | 1 => s.lock && decide (s.cfgPath = .target) && decide (s.tempPath = none)
  | 2 => s.lock && decide (s.tempPath ≠ none) &&
         decide (s.cfgPath = tmpOf s.tempPath)
  | _ => false

/-- ConfigTransaction.raise_state_to_locked when the lock is acquired
within the timeout. -/
def raise_state_to_locked (s : Sys) : Sys :=
  if s.state = 0 then { s with state := 1, lock := true } else s

/-- ConfigTransaction.raise_state_to_locked when open_locked times out:
self.state was already assigned 1 before the acquisition attempt, the
lock attribute is never assigned, and the exception propagates. -/
def raise_state_to_locked_timeout (s : Sys) : Sys :=
  if s.state = 0 then { s with state := 1 } else s

/-- ConfigTransaction.set_state_writable: ensure LOCKED, then from state 1
create the staged file (NamedTemporaryFile), seed it from the Target Path
if it exists and from the packaged default otherwise (collapsed with the
creation into one copy event), point the accessor at it; finally state is
set to 2. -/
def set_state_writable (dflt : List String) (s0 : Sys) : Sys :=
  let s := raise_state_to_locked s0
  let s1 :=
    if s.state = 1 then
      let n := s.nextTmp
      let seed := s.target.getD dflt
      { s with tempPath := some n,
               tmps := fun m => if m = n then some seed else s.tmps m,
               cfgPath := .tmp n,
               nextTmp := n + 1,
               events := s.events ++
                 [.copy (if s.target.isSome then .target else .defaultCfg)
                   (.tmp n)] }
    else s
  { s1 with state := 2 }

/-- ConfigTransaction.set_state_idle: from state 2 repoint the accessor at
the Target Path and drop to state 1 (the staged file itself is not removed
here), then from state 1 release the lock and drop to state 0. -/
def set_state_idle (s0 : Sys) : Sys :=
  let s :=
    if s0.state = 2 then
      { s0 with cfgPath := .target, state := 1, tempPath := none }
    else s0
  if s.state = 1 then { s with lock := false, state := 0 } else s

/-- ConfigTransaction.set_config_value: escalate to WRITABLE, then
BootConfig.set_value on the staged file: no write when the read yields no
lines, otherwise rewrite with the Document Engine result (opaque eset,
receiving name, value and the forwarded filter). -/
def set_config_value
    (eset : String → Option String → Filter → List String → List String)
    (dflt : List String) (name : String) (value : Option String)
    (cf : Filter) (s0 : Sys) : Sys :=
  let s := set_state_writable dflt s0
  let ls := linesOf (readPath dflt s s.cfgPath)
  if ls.isEmpty then s
  else writePath s s.cfgPath (eset name value cf ls)

/-- ConfigTransaction.set_config_comment: escalate to WRITABLE, then
BootConfig.set_comment on the staged file. -/
def set_config_comment (dflt : List String) (name value : String)
    (s0 : Sys) : Sys :=
  let s := set_state_writable dflt s0
  let ls := linesOf (readPath dflt s s.cfgPath)
  if ls.isEmpty then s
  else writePath s s.cfgPath
    (comment_str_full name value :: set_comment_body (comment_str_name name) ls)

/-- ConfigTransaction.copy_from: escalate to WRITABLE and copy the source
file over the staged file (shutil.copy2). Only the branch where a staged
path exists and the source is readable is reachable: set_state_writable
always leaves a staged path, and the only in-module source is the packaged
default, which exists. -/
def copy_from (dflt : List String) (src : FPath) (s0 : Sys) : Sys :=
  let s := set_state_writable dflt s0
  match s.tempPath, readPath dflt s src with
  | some n, some c =>
    { s with tmps := fun m => if m = n then some c else s.tmps m,
             events := s.events ++ [.copy src (.tmp n)] }
  | _, _ => s

/-- BootConfig.check_corrupt applied to a path of the model filesystem
(no unreadable files in the model filesystem, so only the absent and
lines cases arise). -/
def check_corrupt_at (c : Option (List String)) : Bool :=
  match c with
  | none => check_corrupt .absent
  | some ls => check_corrupt (.lines ls)

/-- ConfigTransaction.check_corrupt_config: raise to LOCKED, check the
file the accessor points at; if corrupt, copy the packaged default in
(escalating to WRITABLE) and report true. -/
def check_corrupt_config (dflt : List String) (s0 : Sys) : Bool × Sys :=
  let s := raise_state_to_locked s0
  if check_corrupt_at (readPath dflt s s.cfgPath) then
    (true, copy_from dflt .defaultCfg s)
  else (false, s)

/-- BootConfig._noobs_defaults_present: membership of the sentinel in the
read lines; on a missing file the read returns None and the membership
test raises TypeError (modelled as none). -/
def noobs_defaults_present (c : Option (List String)) : Option Bool :=
  match c with
  | none => none
  | some ls => some (decide (noobs_line ∈ ls))

/-- ConfigTransaction.remove_noobs_defaults: raise to LOCKED, test for the
sentinel, escalate to WRITABLE only if present, then rewrite the file the
accessor currently points at (the staged file if escalated, otherwise the
Target Path itself) with the lines before the sentinel. Returns none when
the presence test raises (absent Target Path). -/
def remove_noobs_defaults (dflt : List String) (s0 : Sys) :
    Option (Bool × Sys) :=
  let s := raise_state_to_locked s0
  match noobs_defaults_present (readPath dflt s s.cfgPath) with
  | none => none
  | some present =>
    let s1 := if present then set_state_writable dflt s else s
    let ls := linesOf (readPath dflt s1 s1.cfgPath)
    some (present, writePath s1 s1.cfgPath (lines_before_sentinel ls))

/-- ConfigTransaction.close: from state 2, unless dry_run is set, rename
the staged file onto the Target Path (shutil.move) with directory fsync;
in dry run the staged file is left in place untouched. In every case end
with set_state_idle. The state-2-without-staged-path branch is not
reachable from valid states. -/
def close (s0 : Sys) : Sys :=
  let s :=
    if s0.state = 2 then
      if s0.dryRun then s0
      else
        match s0.tempPath with
        | some n =>
          { s0 with target := s0.tmps n,
                    tmps := fun m => if m = n then none else s0.tmps m,
                    events := s0.events ++ [.rename (.tmp n) .target] }
        | none => s0
    else s0
  set_state_idle s

/-- ConfigTransaction.abort: os.remove(self.temp_path) then set_state_idle.
When temp_path is None (nothing staged) os.remove raises TypeError, and
when the staged file is not on disk it raises FileNotFoundError: both are
modelled as none, the exception propagating before any state change. -/
def abort (s : Sys) : Option Sys :=
  match s.tempPath with
  | none => none
  | some n =>
    match s.tmps n with
    | none => none
    | some _ =>
      some (set_state_idle
        { s with tmps := fun m => if m = n then none else s.tmps m,
                 events := s.events ++ [.remove (.tmp n)] })

/-- The transaction operations a caller can run before closing (the
sentinel-removal and abort entry points are modelled separately because
they can raise). Filters and names are carried to keep the calls faithful;
read operations still escalate the state. -/
inductive Op
  | getValue (name : String) (cf : Filter)
  | setValue (name : String) (value : Option String) (cf : Filter)
  | setComment (name value : String)
  | getComment (name value : String)
  | hasComment (name : String)
  | copyFromDefault
  | checkCorrupt

/-- One operation of a transaction, as dispatched by the module-level API. -/
def stepOp (eset : String → Option String → Filter → List String → List String)
    (dflt : List String) (s : Sys) : Op → Sys
  | .getValue _ _ => raise_state_to_locked s
  | .setValue n v cf => set_config_value eset dflt n v cf s
  | .setComment n v => set_config_comment dflt n v s
  | .getComment _ _ => raise_state_to_locked s
  | .hasComment _ => raise_state_to_locked s
  | .copyFromDefault => copy_from dflt .defaultCfg s
  | .checkCorrupt => (check_corrupt_config dflt s).2

/-- A sequence of operations run on one transaction. -/
def runOps (eset : String → Option String → Filter → List String → List String)
    (dflt : List String) : Sys → List Op → Sys :=
  List.foldl (stepOp eset dflt)

/-- A command is an operation or a close (commit). -/
inductive Cmd
  | run (o : Op)
  | commit

/-- One command of a transaction. -/
def stepCmd (eset : String → Option String → Filter → List String → List String)
    (dflt : List String) (s : Sys) : Cmd → Sys
  | .run o => stepOp eset dflt s o
  | .commit => close s

/-- A sequence of commands run on one transaction. -/
def runCmds (eset : String → Option String → Filter → List String → List String)
    (dflt : List String) : Sys → List Cmd → Sys :=
  List.foldl (stepCmd eset dflt)

/-- Does a filesystem event write to or replace the Target Path? -/
def writesTarget : Ev → Bool
  | .write .target _ => true
  | .copy _ .target => true
  | .rename _ .target => true
  | _ => false

/-- Modelled from the spec: the Document Engine (BootConfigParser) is an
external collaborator with an opaque set operation; this is one concrete
deterministic instance of that contract, used only to run the machine on
concrete inputs (it appends the assignment as a new line). -/
def esetApp (name : String) (value : Option String) (_ : Filter)
    (ls : List String) : List String :=
  ls ++ [name ++ "=" ++ value.getD ""]

/-- A concrete packaged default document for concrete runs. -/
def dflt0 : List String := ["dtparam=audio=on"]

/-! ## Helper lemmas -/

/-- charsContain decides the infix (contiguous substring) relation. -/
theorem charsContain_eq_true_iff (n h : List Char) :
    charsContain n h = true ↔ n <:+: h := by
  induction h with
  | nil =>
    simp [charsContain, List.isEmpty_iff]
  | cons c cs ih =>
    simp [charsContain, List.isPrefixOf_iff_prefix, ih, List.infix_cons_iff]

/-- occursIn is the substring test: it agrees with the infix relation on
the character lists of the two strings. -/
theorem occursIn_eq_decide (pat l : String) :
    occursIn pat l = decide (pat.data <:+: l.data) := by
  by_cases h : pat.data <:+: l.data
  · rw [occursIn, (charsContain_eq_true_iff pat.data l.data).2 h]
    simp [h]
  · have hf : charsContain pat.data l.data = false := by
      rcases hb : charsContain pat.data l.data
      · rfl
      · exact absurd ((charsContain_eq_true_iff _ _).1 hb) h
    rw [occursIn, hf]
    simp [h]

/-- The set_comment body loop keeps exactly the lines without the pattern. -/
theorem set_comment_body_eq_filter (pat : String) (ls : List String) :
    set_comment_body pat ls = ls.filter (fun l => !occursIn pat l) := by
  induction ls with
  | nil => rfl
  | cons l t ih =>
    by_cases h : occursIn pat l = true
    · simp [set_comment_body, h, ih]
    · simp only [Bool.not_eq_true] at h
      simp [set_comment_body, h, ih]

/-! ## Claim theorems -/

/-- C6: BootConfig.check_corrupt is total (it answers on every read
outcome, including an unreadable file) and returns false exactly when the
file is readable and every marker of the fixed required-marker set occurs
in at least one line; absence and unreadability both count as corrupt. -/
theorem check_corrupt_false_iff (f : FileRead) :
    (check_corrupt f = false ↔
      ∃ ls, f = .lines ls ∧
        ∀ m ∈ must_contain, ∃ l ∈ ls, occursIn m l = true) ∧
    check_corrupt .absent = true ∧ check_corrupt .unreadable = true := by
  refine ⟨?_, rfl, rfl⟩
  cases f with
  | absent => simp [check_corrupt]
  | unreadable => simp [check_corrupt]
  | lines ls =>
    by_cases hA : (must_contain.all fun m => ls.any fun l => occursIn m l) = true
    · rw [check_corrupt, if_pos hA]
      simp only [List.all_eq_true, List.any_eq_true] at hA
      exact ⟨fun _ => ⟨ls, rfl, hA⟩, fun _ => rfl⟩
    · rw [check_corrupt, if_neg hA]
      constructor
      · intro h
        exact absurd h (by simp)
      · rintro ⟨ls2, heq, hall⟩
        cases heq
        exact absurd (by simpa [List.all_eq_true, List.any_eq_true] using hall) hA

/-- C9: get_value on a read that yields no lines (empty or missing file)
returns the integer 0 for every engine, name, filter, fallback and
ignore_comments argument, not an absence or error value. -/
theorem get_value_empty_returns_zero
    (eget : String → Filter → Bool → Bool → List String → PyVal)
    (name : String) (cf : Filter) (fallback ignoreComments : Bool)
    (content : Option (List String))
    (h : content = none ∨ content = some []) :
    get_value eget name cf fallback ignoreComments content = .int 0 := by
  rcases h with h | h <;> subst h <;> rfl

/-- Witness for get_value_empty_returns_zero at a concrete engine, missing
file, and arguments. -/
theorem get_value_empty_returns_zero_witness :
    ((none : Option (List String)) = none ∨
      (none : Option (List String)) = some []) ∧
    get_value (fun _ _ _ _ _ => .engineVal 7) "hdmi_group" .ALL true false
      none = .int 0 :=
  ⟨Or.inl rfl,
   get_value_empty_returns_zero (fun _ _ _ _ _ => .engineVal 7) "hdmi_group"
     .ALL true false none (Or.inl rfl)⟩

/-- C10: set_comment on a non-empty file writes the new annotation as the
first line and keeps exactly those old lines in which "### name" does not
occur as a contiguous substring anywhere, so annotations of other names
extending this name and ordinary body lines containing the text are also
dropped. -/
theorem set_comment_strips_substring_matches (name value : String)
    (ls : List String) (h : ls ≠ []) :
    set_comment name value (some ls) =
      some (comment_str_full name value ::
        ls.filter (fun l => !decide ((comment_str_name name).data <:+: l.data))) := by
  have hne : ls.isEmpty = false := by
    rcases hb : ls.isEmpty
    · rfl
    · exact absurd (List.isEmpty_iff.mp hb) h
  rw [set_comment]
  simp only [linesOf, Option.getD_some, hne, Bool.false_eq_true, if_false,
    set_comment_body_eq_filter]
  have harg : (fun l => !occursIn (comment_str_name name) l) =
      (fun l => !decide ((comment_str_name name).data <:+: l.data)) := by
    funext l
    rw [occursIn_eq_decide]
  rw [harg]

/-- Witness for set_comment_strips_substring_matches: setting comment
"foo" removes the annotation of the longer name "foobar" and a body line
containing the text, keeping only the unrelated line. -/
theorem set_comment_strips_substring_matches_witness :
    (["a=1", "### foobar: w", "x ### foo y"] : List String) ≠ [] ∧
    set_comment "foo" "v" (some ["a=1", "### foobar: w", "x ### foo y"]) =
      some ["### foo: v", "a=1"] :=
  ⟨by decide,
   (set_comment_strips_substring_matches "foo" "v"
     ["a=1", "### foobar: w", "x ### foo y"] (by decide)).trans (by decide)⟩

/-- C2 (the code side): when lock acquisition times out in
raise_state_to_locked from IDLE, the failure propagates with no lock held,
nothing staged and the Target Path untouched, but the coordinator is left
with state 1 rather than back in state 0, so its own valid_state condition
no longer holds. -/
theorem lock_timeout_leaves_invalid_state (s : Sys)
    (hv : valid_state s = true) (h0 : s.state = 0) :
    (raise_state_to_locked_timeout s).state = 1 ∧
    (raise_state_to_locked_timeout s).lock = false ∧
    (raise_state_to_locked_timeout s).tempPath = none ∧
    (raise_state_to_locked_timeout s).target = s.target ∧
    (raise_state_to_locked_timeout s).events = s.events ∧
    valid_state (raise_state_to_locked_timeout s) = false := by
  simp only [valid_state, h0, Bool.and_eq_true, Bool.not_eq_true',
    decide_eq_true_eq] at hv
  obtain ⟨⟨hl, hc⟩, ht⟩ := hv
  rw [raise_state_to_locked_timeout, if_pos h0]
  refine ⟨rfl, hl, ht, rfl, rfl, ?_⟩
  simp [valid_state, hl]

/-- Witness for lock_timeout_leaves_invalid_state on a fresh transaction. -/
theorem lock_timeout_leaves_invalid_state_witness :
    valid_state (init (some ["x"])) = true ∧ (init (some ["x"])).state = 0 ∧
    valid_state (raise_state_to_locked_timeout (init (some ["x"]))) = false :=
  ⟨rfl, rfl,
   (lock_timeout_leaves_invalid_state (init (some ["x"])) rfl rfl).2.2.2.2.2⟩

/-- Fields untouched by raise_state_to_locked. -/
theorem raiseLocked_fields (s : Sys) :
    (raise_state_to_locked s).target = s.target ∧
    (raise_state_to_locked s).events = s.events ∧
    (raise_state_to_locked s).tempPath = s.tempPath ∧
    (raise_state_to_locked s).cfgPath = s.cfgPath ∧
    (raise_state_to_locked s).tmps = s.tmps ∧
    (raise_state_to_locked s).dryRun = s.dryRun := by
  rw [raise_state_to_locked]
  split <;> exact ⟨rfl, rfl, rfl, rfl, rfl, rfl⟩

/-- raise_state_to_locked preserves validity (when the lock is acquired). -/
theorem raiseLocked_valid (s : Sys) (hv : valid_state s = true) :
    valid_state (raise_state_to_locked s) = true := by
  rw [raise_state_to_locked]
  by_cases h : s.state = 0
  · simp only [valid_state, h, Bool.and_eq_true, Bool.not_eq_true',
      decide_eq_true_eq] at hv
    rw [if_pos h]
    simp [valid_state, hv.1.2, hv.2]
  · rw [if_neg h]
    exact hv

/-- Reading any path is unaffected by raise_state_to_locked. -/
theorem readPath_raiseLocked (dflt : List String) (s : Sys) (p : FPath) :
    readPath dflt (raise_state_to_locked s) p = readPath dflt s p := by
  rw [raise_state_to_locked]
  split <;> cases p <;> rfl

/-- Destructing validity in state 2: a staged path exists and the accessor
points at it. -/
theorem valid2_dest (s : Sys) (hv : valid_state s = true)
    (h2 : s.state = 2) :
    ∃ n, s.tempPath = some n ∧ s.cfgPath = .tmp n ∧ s.lock = true := by
  simp only [valid_state, h2, Bool.and_eq_true, decide_eq_true_eq] at hv
  obtain ⟨⟨hl, hne⟩, hcp⟩ := hv
  cases htp : s.tempPath with
  | none => exact absurd htp hne
  | some n =>
    rw [htp] at hcp
    exact ⟨n, rfl, hcp, hl⟩

/-- set_state_idle: from any valid state it returns to a valid IDLE state
with the lock dropped, touching no file and no event. -/
theorem set_state_idle_spec (s : Sys) (hv : valid_state s = true) :
    valid_state (set_state_idle s) = true ∧
    (set_state_idle s).state = 0 ∧
    (set_state_idle s).lock = false ∧
    (set_state_idle s).tempPath = none ∧
    (set_state_idle s).target = s.target ∧
    (set_state_idle s).events = s.events ∧
    (set_state_idle s).tmps = s.tmps ∧
    (set_state_idle s).dryRun = s.dryRun := by
  rcases hs : s.state with _ | _ | _ | k
  · simp only [valid_state, hs, Bool.and_eq_true, Bool.not_eq_true',
      decide_eq_true_eq] at hv
    have heq : set_state_idle s = s := by
      rw [set_state_idle]
      simp [hs]
    rw [heq]
    exact ⟨by simp [valid_state, hs, hv.1.1, hv.1.2, hv.2], hs, hv.1.1,
      hv.2, rfl, rfl, rfl, rfl⟩
  · simp only [valid_state, hs, Bool.and_eq_true, decide_eq_true_eq] at hv
    have heq : set_state_idle s = { s with lock := false, state := 0 } := by
      rw [set_state_idle]
      simp [hs]
    rw [heq]
    exact ⟨by simp [valid_state, hv.1.2, hv.2], rfl, rfl, hv.2, rfl, rfl,
      rfl, rfl⟩
  · simp only [valid_state, hs, Bool.and_eq_true, decide_eq_true_eq] at hv
    have heq : set_state_idle s =
        { s with cfgPath := .target, tempPath := none, lock := false,
                 state := 0 } := by
      rw [set_state_idle]
      simp [hs]
    rw [heq]
    exact ⟨by simp [valid_state], rfl, rfl, rfl, rfl, rfl, rfl, rfl⟩
  · simp [valid_state, hs] at hv

/-- C3: close from IDLE or LOCKED (nothing was ever staged) leaves the
Target Path content unchanged, performs no filesystem event, and returns
the coordinator to IDLE with the lock released. -/
theorem close_readonly_noop (s : Sys) (hv : valid_state s = true)
    (h : s.state = 0 ∨ s.state = 1) :
    (close s).target = s.target ∧ (close s).events = s.events ∧
    (close s).state = 0 ∧ (close s).lock = false ∧
    (close s).tempPath = none := by
  have h2 : s.state ≠ 2 := by rcases h with h | h <;> omega
  have hcl : close s = set_state_idle s := by
    rw [close]
    simp [h2]
  obtain ⟨_, g1, g2, g3, g4, g5, _, _⟩ := set_state_idle_spec s hv
  rw [hcl]
  exact ⟨g4, g5, g1, g2, g3⟩

/-- Witness for close_readonly_noop on a transaction that only acquired
the lock (a read-only transaction). -/
theorem close_readonly_noop_witness :
    valid_state (raise_state_to_locked (init (some ["x"]))) = true ∧
    (raise_state_to_locked (init (some ["x"]))).state = 1 ∧
    (close (raise_state_to_locked (init (some ["x"])))).target =
      (raise_state_to_locked (init (some ["x"]))).target ∧
    (close (raise_state_to_locked (init (some ["x"])))).state = 0 ∧
    (close (raise_state_to_locked (init (some ["x"])))).lock = false :=
  ⟨by decide, by decide,
   (close_readonly_noop _ (by decide) (Or.inr (by decide))).1,
   (close_readonly_noop _ (by decide) (Or.inr (by decide))).2.2.1,
   (close_readonly_noop _ (by decide) (Or.inr (by decide))).2.2.2.1⟩

/-- Writing a staged file touches neither the Target Path nor the validity
condition, and adds no event that writes the Target Path. -/
theorem writePath_tmp_spec (s : Sys) (n : Nat) (c : List String) :
    valid_state (writePath s (.tmp n) c) = valid_state s ∧
    (writePath s (.tmp n) c).target = s.target ∧
    (writePath s (.tmp n) c).dryRun = s.dryRun ∧
    (writePath s (.tmp n) c).state = s.state ∧
    ((writePath s (.tmp n) c).events.all (fun e => !writesTarget e) =
      s.events.all (fun e => !writesTarget e)) := by
  refine ⟨rfl, rfl, rfl, rfl, ?_⟩
  simp [writePath, writesTarget]

/-- set_state_writable from any valid state: the result is a valid
WRITABLE state with the Target Path untouched and only a staging copy
event (never a Target Path write) added. -/
theorem set_state_writable_spec (dflt : List String) (s : Sys)
    (hv : valid_state s = true) :
    valid_state (set_state_writable dflt s) = true ∧
    (set_state_writable dflt s).state = 2 ∧
    (set_state_writable dflt s).target = s.target ∧
    (set_state_writable dflt s).dryRun = s.dryRun ∧
    ((set_state_writable dflt s).events.all (fun e => !writesTarget e) =
      s.events.all (fun e => !writesTarget e)) := by
  rcases hs : s.state with _ | _ | _ | k
  · simp only [valid_state, hs, Bool.and_eq_true, Bool.not_eq_true',
      decide_eq_true_eq] at hv
    have heq : set_state_writable dflt s =
        { s with state := 2, lock := true, tempPath := some s.nextTmp,
                 tmps := fun m =>
                   if m = s.nextTmp then some (s.target.getD dflt)
                   else s.tmps m,
                 cfgPath := .tmp s.nextTmp, nextTmp := s.nextTmp + 1,
                 events := s.events ++
                   [.copy (if s.target.isSome then .target else .defaultCfg)
                     (.tmp s.nextTmp)] } := by
      rw [set_state_writable, raise_state_to_locked]
      simp [hs]
    rw [heq]
    refine ⟨by simp [valid_state, tmpOf], rfl, rfl, rfl, ?_⟩
    simp [writesTarget]
  · simp only [valid_state, hs, Bool.and_eq_true, decide_eq_true_eq] at hv
    have heq : set_state_writable dflt s =
        { s with state := 2, tempPath := some s.nextTmp,
                 tmps := fun m =>
                   if m = s.nextTmp then some (s.target.getD dflt)
                   else s.tmps m,
                 cfgPath := .tmp s.nextTmp, nextTmp := s.nextTmp + 1,
                 events := s.events ++
                   [.copy (if s.target.isSome then .target else .defaultCfg)
                     (.tmp s.nextTmp)] } := by
      rw [set_state_writable, raise_state_to_locked]
      simp [hs]
    rw [heq]
    refine ⟨by simp [valid_state, tmpOf, hv.1.1], rfl, rfl, rfl, ?_⟩
    simp [writesTarget]
  · have heq : set_state_writable dflt s = { s with state := 2 } := by
      rw [set_state_writable, raise_state_to_locked]
      simp [hs]
    rw [heq]
    refine ⟨?_, rfl, rfl, rfl, rfl⟩
    simpa [valid_state, hs] using hv
  · simp [valid_state, hs] at hv

/-- copy_from with the packaged default as source: a valid WRITABLE state
whose staged file now holds the default document, with the Target Path
untouched. -/
theorem copy_from_default_spec (dflt : List String) (s : Sys)
    (hv : valid_state s = true) :
    valid_state (copy_from dflt .defaultCfg s) = true ∧
    (copy_from dflt .defaultCfg s).state = 2 ∧
    (copy_from dflt .defaultCfg s).target = s.target ∧
    (copy_from dflt .defaultCfg s).dryRun = s.dryRun ∧
    ((copy_from dflt .defaultCfg s).events.all (fun e => !writesTarget e) =
      s.events.all (fun e => !writesTarget e)) ∧
    ∃ n, (copy_from dflt .defaultCfg s).tempPath = some n ∧
      (copy_from dflt .defaultCfg s).tmps n = some dflt := by
  obtain ⟨hval, h2, htg, hdr, hev⟩ := set_state_writable_spec dflt s hv
  obtain ⟨n, htp, hcp, hl⟩ := valid2_dest _ hval h2
  have heq : copy_from dflt .defaultCfg s =
      { set_state_writable dflt s with
        tempPath := some n,
        tmps := fun m =>
          if m = n then some dflt
          else (set_state_writable dflt s).tmps m,
        events := (set_state_writable dflt s).events ++
          [.copy .defaultCfg (.tmp n)] } := by
    rw [copy_from, htp]
    simp only [readPath]
  rw [heq]
  refine ⟨?_, h2, htg, hdr, ?_, n, rfl, by simp⟩
  · simp [valid_state, h2, hl, hcp, tmpOf]
  · simp only [List.all_append, hev]
    simp [writesTarget]

/-- Every modelled operation (reads, sets, comment sets, copy_from the
default, corruption check) preserves validity, the Target Path content,
the dry-run flag, and adds no event that writes the Target Path. -/
theorem stepOp_frame
    (eset : String → Option String → Filter → List String → List String)
    (dflt : List String) (s : Sys) (o : Op)
    (hv : valid_state s = true) :
    valid_state (stepOp eset dflt s o) = true ∧
    (stepOp eset dflt s o).target = s.target ∧
    (stepOp eset dflt s o).dryRun = s.dryRun ∧
    ((stepOp eset dflt s o).events.all (fun e => !writesTarget e) =
      s.events.all (fun e => !writesTarget e)) := by
  have hlk : ∀ t : Sys, valid_state t = true →
      valid_state (raise_state_to_locked t) = true ∧
      (raise_state_to_locked t).target = t.target ∧
      (raise_state_to_locked t).dryRun = t.dryRun ∧
      ((raise_state_to_locked t).events.all (fun e => !writesTarget e) =
        t.events.all (fun e => !writesTarget e)) := by
    intro t ht
    obtain ⟨f1, f2, _, _, _, f6⟩ := raiseLocked_fields t
    exact ⟨raiseLocked_valid t ht, f1, f6, by rw [f2]⟩
  have hwr : ∀ t : Sys, valid_state t = true → ∀ c : List String,
      valid_state (writePath t t.cfgPath c) = true ∧
      (writePath t t.cfgPath c).target = t.target ∧
      (writePath t t.cfgPath c).dryRun = t.dryRun ∧
      ((writePath t t.cfgPath c).events.all (fun e => !writesTarget e) =
        t.events.all (fun e => !writesTarget e)) ∨
      t.state ≠ 2 := by
    intro t ht c
    by_cases h2 : t.state = 2
    · obtain ⟨n, _, hcp, _⟩ := valid2_dest t ht h2
      rw [hcp]
      obtain ⟨w1, w2, w3, _, w5⟩ := writePath_tmp_spec t n c
      exact Or.inl ⟨by rw [w1]; exact ht, w2, w3, w5⟩
    · exact Or.inr h2
  cases o with
  | getValue name cf => exact hlk s hv
  | getComment name value => exact hlk s hv
  | hasComment name => exact hlk s hv
  | setValue name v cf =>
    obtain ⟨hval, h2, htg, hdr, hev⟩ := set_state_writable_spec dflt s hv
    rw [stepOp, set_config_value]
    rcases hwr (set_state_writable dflt s) hval
      (eset name v cf
        (linesOf (readPath dflt (set_state_writable dflt s)
          (set_state_writable dflt s).cfgPath))) with hw | hw
    · split
      · exact ⟨hval, htg, hdr, hev⟩
      · exact ⟨hw.1, hw.2.1.trans htg, hw.2.2.1.trans hdr,
          hw.2.2.2.trans hev⟩
    · exact absurd h2 hw
  | setComment name value =>
    obtain ⟨hval, h2, htg, hdr, hev⟩ := set_state_writable_spec dflt s hv
    rw [stepOp, set_config_comment]
    rcases hwr (set_state_writable dflt s) hval
      (comment_str_full name value ::
        set_comment_body (comment_str_name name)
          (linesOf (readPath dflt (set_state_writable dflt s)
            (set_state_writable dflt s).cfgPath))) with hw | hw
    · split
      · exact ⟨hval, htg, hdr, hev⟩
      · exact ⟨hw.1, hw.2.1.trans htg, hw.2.2.1.trans hdr,
          hw.2.2.2.trans hev⟩
    · exact absurd h2 hw
  | copyFromDefault =>
    obtain ⟨c1, _, c3, c4, c5, _⟩ := copy_from_default_spec dflt s hv
    exact ⟨c1, c3, c4, c5⟩
  | checkCorrupt =>
    obtain ⟨l1, l2, l3, l4⟩ := hlk s hv
    rw [stepOp, check_corrupt_config]
    split
    · obtain ⟨c1, _, c3, c4, c5, _⟩ :=
        copy_from_default_spec dflt (raise_state_to_locked s) l1
      exact ⟨c1, c3.trans l2, c4.trans l3, c5.trans l4⟩
    · exact ⟨l1, l2, l3, l4⟩

/-- A whole sequence of modelled operations preserves validity, the Target
Path content, the dry-run flag, and target-write-freedom of the trace. -/
theorem runOps_frame
    (eset : String → Option String → Filter → List String → List String)
    (dflt : List String) (ops : List Op) (s : Sys)
    (hv : valid_state s = true) :
    valid_state (runOps eset dflt s ops) = true ∧
    (runOps eset dflt s ops).target = s.target ∧
    (runOps eset dflt s ops).dryRun = s.dryRun ∧
    ((runOps eset dflt s ops).events.all (fun e => !writesTarget e) =
      s.events.all (fun e => !writesTarget e)) := by
  induction ops generalizing s with
  | nil => exact ⟨hv, rfl, rfl, rfl⟩
  | cons o t ih =>
    obtain ⟨h1, h2, h3, h4⟩ := stepOp_frame eset dflt s o hv
    obtain ⟨g1, g2, g3, g4⟩ := ih (stepOp eset dflt s o) h1
    exact ⟨g1, g2.trans h2, g3.trans h3, g4.trans h4⟩

/-- C1 counterexample: remove_noobs_defaults on a Target Path that exists
but has no sentinel stays LOCKED and rewrites the Target Path in place
(a truncating open + write of the real file), so an operation other than
close performs a write to the Target Path before any close. -/
theorem remove_noobs_writes_target_in_place :
    (remove_noobs_defaults dflt0 (init (some ["a=1"]))).map
        (fun r => (r.1, r.2.state, r.2.events)) =
      some (false, 1, [Ev.write .target ["a=1"]]) := by decide

/-- C1 amended: excluding remove_noobs_defaults, no operation of a
transaction ever writes the Target Path — a whole sequence of
get/set/comment/copy_from/corruption-check operations leaves the Target
Path content in its pre-transaction state and its event trace free of
Target Path writes — and a non-dry-run close from WRITABLE replaces the
Target Path with exactly the final staged content via the single rename. -/
theorem no_target_write_before_close
    (eset : String → Option String → Filter → List String → List String)
    (dflt : List String) (tgt : Option (List String)) (ops : List Op) :
    ((runOps eset dflt (init tgt) ops).target = tgt ∧
     (runOps eset dflt (init tgt) ops).events.all
       (fun e => !writesTarget e) = true) ∧
    (∀ s n c, s.state = 2 → s.dryRun = false → s.tempPath = some n →
      s.tmps n = some c →
      (close s).target = some c ∧
      (close s).events = s.events ++ [Ev.rename (.tmp n) .target]) := by
  constructor
  · obtain ⟨_, h2, _, h4⟩ := runOps_frame eset dflt ops (init tgt) rfl
    exact ⟨h2, h4⟩
  · intro s n c h2 hd htp hc
    have heq : close s = set_state_idle
        { s with target := s.tmps n,
                 tmps := fun m => if m = n then none else s.tmps m,
                 events := s.events ++ [Ev.rename (.tmp n) .target] } := by
      rw [close, htp]
      simp [h2, hd]
    rw [heq, set_state_idle]
    simp [h2, hc]

/-- Witness for no_target_write_before_close: a concrete set_config_value
stages content, and the close from WRITABLE installs exactly the staged
content on the Target Path. -/
theorem no_target_write_before_close_witness :
    (set_config_value esetApp dflt0 "arm_freq" (some "900") .ALL
        (init (some ["x"]))).state = 2 ∧
    (set_config_value esetApp dflt0 "arm_freq" (some "900") .ALL
        (init (some ["x"]))).dryRun = false ∧
    (set_config_value esetApp dflt0 "arm_freq" (some "900") .ALL
        (init (some ["x"]))).tempPath = some 0 ∧
    (set_config_value esetApp dflt0 "arm_freq" (some "900") .ALL
        (init (some ["x"]))).tmps 0 = some ["x", "arm_freq=900"] ∧
    (close (set_config_value esetApp dflt0 "arm_freq" (some "900") .ALL
        (init (some ["x"])))).target = some ["x", "arm_freq=900"] :=
  ⟨by decide, by decide, by decide, by decide,
   ((no_target_write_before_close esetApp dflt0 (some ["x"]) []).2
     (set_config_value esetApp dflt0 "arm_freq" (some "900") .ALL
       (init (some ["x"]))) 0 ["x", "arm_freq=900"]
     (by decide) (by decide) (by decide) (by decide)).1⟩

/-- Under dry run, close never touches any file: it only drops back to
IDLE. -/
theorem close_dry_frame (s : Sys) (hv : valid_state s = true)
    (hd : s.dryRun = true) :
    valid_state (close s) = true ∧ (close s).target = s.target ∧
    (close s).dryRun = true ∧ (close s).events = s.events := by
  have heq : close s = set_state_idle s := by
    rw [close]
    by_cases h2 : s.state = 2 <;> simp [h2, hd]
  obtain ⟨g1, _, _, _, g5, g6, _, g8⟩ := set_state_idle_spec s hv
  rw [heq]
  exact ⟨g1, g5, g8.trans hd, g6⟩

/-- Under dry run, every command (any operation or a close) preserves
validity, the Target Path content, the dry-run flag, and
target-write-freedom of the trace. -/
theorem runCmds_frame_dry
    (eset : String → Option String → Filter → List String → List String)
    (dflt : List String) (cmds : List Cmd) (s : Sys)
    (hv : valid_state s = true) (hd : s.dryRun = true) :
    valid_state (runCmds eset dflt s cmds) = true ∧
    (runCmds eset dflt s cmds).target = s.target ∧
    (runCmds eset dflt s cmds).dryRun = true ∧
    ((runCmds eset dflt s cmds).events.all (fun e => !writesTarget e) =
      s.events.all (fun e => !writesTarget e)) := by
  induction cmds generalizing s with
  | nil => exact ⟨hv, rfl, hd, rfl⟩
  | cons c t ih =>
    have hstep : valid_state (stepCmd eset dflt s c) = true ∧
        (stepCmd eset dflt s c).target = s.target ∧
        (stepCmd eset dflt s c).dryRun = true ∧
        ((stepCmd eset dflt s c).events.all (fun e => !writesTarget e) =
          s.events.all (fun e => !writesTarget e)) := by
      cases c with
      | run o =>
        obtain ⟨h1, h2, h3, h4⟩ := stepOp_frame eset dflt s o hv
        exact ⟨h1, h2, h3.trans hd, h4⟩
      | commit =>
        obtain ⟨h1, h2, h3, h4⟩ := close_dry_frame s hv hd
        refine ⟨h1, h2, h3, ?_⟩
        show ((close s).events.all fun e => !writesTarget e) =
          s.events.all fun e => !writesTarget e
        rw [h4]
    obtain ⟨h1, h2, h3, h4⟩ := hstep
    obtain ⟨g1, g2, g3, g4⟩ := ih (stepCmd eset dflt s c) h1 h3
    exact ⟨g1, g2.trans h2, g3, g4.trans h4⟩

/-- C7 counterexample: two dry-run set+close cycles. The Target Path stays
unchanged, but each cycle stages a fresh copy seeded from the unchanged
Target Path, so the final staged content reflects only the second cycle's
write; the content reflecting both writes would be different. -/
theorem dry_run_cycles_do_not_accumulate :
    (runCmds esetApp dflt0 (set_dry_run (init (some ["#"])))
        [.run (.setValue "a" (some "1") .ALL), .commit,
         .run (.setValue "b" (some "2") .ALL), .commit]).target =
      some ["#"] ∧
    (runCmds esetApp dflt0 (set_dry_run (init (some ["#"])))
        [.run (.setValue "a" (some "1") .ALL), .commit,
         .run (.setValue "b" (some "2") .ALL), .commit]).tmps 1 =
      some ["#", "b=2"] ∧
    esetApp "b" (some "2") .ALL (esetApp "a" (some "1") .ALL ["#"]) =
      ["#", "a=1", "b=2"] ∧
    (["#", "b=2"] : List String) ≠ ["#", "a=1", "b=2"] := by decide

/-- C7 amended: once dry run is set, no sequence of operations and closes
ever writes or renames onto the Target Path (its content stays in the
pre-transaction state and the trace has no Target Path write), and within
a single cycle the staged content reflects that cycle's write applied to
the (unchanged) Target Path content; writes do not accumulate across
cycles, because each cycle stages a fresh copy of the Target Path. -/
theorem dry_run_isolation
    (eset : String → Option String → Filter → List String → List String)
    (dflt : List String) (tgt : Option (List String)) (cmds : List Cmd) :
    ((runCmds eset dflt (set_dry_run (init tgt)) cmds).target = tgt ∧
     (runCmds eset dflt (set_dry_run (init tgt)) cmds).events.all
       (fun e => !writesTarget e) = true) ∧
    (∀ name v cf ls, ls ≠ [] →
      (set_config_value eset dflt name v cf
        (set_dry_run (init (some ls)))).target = some ls ∧
      (set_config_value eset dflt name v cf
        (set_dry_run (init (some ls)))).tempPath = some 0 ∧
      (set_config_value eset dflt name v cf
        (set_dry_run (init (some ls)))).tmps 0 =
        some (eset name v cf ls)) := by
  constructor
  · obtain ⟨_, h2, _, h4⟩ :=
      runCmds_frame_dry eset dflt cmds (set_dry_run (init tgt)) rfl rfl
    exact ⟨h2, h4⟩
  · intro name v cf ls h
    have hne : ls.isEmpty = false := by
      rcases hb : ls.isEmpty
      · rfl
      · exact absurd (List.isEmpty_iff.mp hb) h
    have heq : set_state_writable dflt (set_dry_run (init (some ls))) =
        { state := 2, lock := true, tempPath := some 0,
          cfgPath := .tmp 0, target := some ls,
          tmps := fun m => if m = 0 then some ls else none,
          nextTmp := 1, dryRun := true,
          events := [.copy .target (.tmp 0)] } := by
      rw [set_state_writable, raise_state_to_locked]
      simp [set_dry_run, init]
    rw [set_config_value, heq]
    simp [readPath, linesOf, hne, writePath]

/-- Witness for dry_run_isolation: one concrete dry-run cycle stages the
write and leaves the Target Path unchanged. -/
theorem dry_run_isolation_witness :
    (["#"] : List String) ≠ [] ∧
    (set_config_value esetApp dflt0 "a" (some "1") .ALL
      (set_dry_run (init (some ["#"])))).tmps 0 = some ["#", "a=1"] ∧
    (runCmds esetApp dflt0 (set_dry_run (init (some ["#"])))
      [.run (.setValue "a" (some "1") .ALL), .commit]).target =
      some ["#"] :=
  ⟨by decide,
   ((dry_run_isolation esetApp dflt0 (some ["#"]) []).2 "a" (some "1")
     .ALL ["#"] (by decide)).2.2.trans (by decide),
   ((dry_run_isolation esetApp dflt0 (some ["#"])
     [.run (.setValue "a" (some "1") .ALL), .commit]).1).1⟩

/-- C4: on a file whose lines are [a, b, sentinel, c, d] (the sentinel
occurring first at the third line), remove_noobs_defaults reports true and
the subsequently closed Target Path holds exactly [a, b]; on any file not
containing the sentinel it reports false. -/
theorem noobs_truncation (dflt : List String) (a b c d : String)
    (ls : List String) (ha : a ≠ noobs_line) (hb : b ≠ noobs_line)
    (hls : noobs_line ∉ ls) :
    (remove_noobs_defaults dflt (init (some [a, b, noobs_line, c, d]))).map
        (fun r => (r.1, (close r.2).target)) = some (true, some [a, b]) ∧
    (remove_noobs_defaults dflt (init (some ls))).map Prod.fst =
      some false := by
  constructor
  · have hm : decide (noobs_line ∈ [a, b, noobs_line, c, d]) = true := by
      simp
    have hlbs : lines_before_sentinel [a, b, noobs_line, c, d] = [a, b] := by
      rw [lines_before_sentinel, if_neg ha, lines_before_sentinel,
        if_neg hb, lines_before_sentinel, if_pos rfl]
    simp only [remove_noobs_defaults, raise_state_to_locked, init,
      readPath, noobs_defaults_present, hm, set_state_writable, linesOf,
      writePath, hlbs, close, set_state_idle]
    simp [hlbs, close, set_state_idle, writePath, readPath, linesOf]
  · have hm : decide (noobs_line ∈ ls) = false := by
      simpa using hls
    simp [remove_noobs_defaults, raise_state_to_locked, init, readPath,
      noobs_defaults_present, hm]

/-- Witness for noobs_truncation at concrete lines. -/
theorem noobs_truncation_witness :
    ("a" ≠ noobs_line ∧ "b" ≠ noobs_line ∧ noobs_line ∉ ["x=1"]) ∧
    (remove_noobs_defaults dflt0
        (init (some ["a", "b", noobs_line, "c", "d"]))).map
      (fun r => (r.1, (close r.2).target)) = some (true, some ["a", "b"]) ∧
    (remove_noobs_defaults dflt0 (init (some ["x=1"]))).map Prod.fst =
      some false :=
  ⟨⟨by decide, by decide, by decide⟩,
   (noobs_truncation dflt0 "a" "b" "c" "d" ["x=1"] (by decide) (by decide)
     (by decide)).1,
   (noobs_truncation dflt0 "a" "b" "c" "d" ["x=1"] (by decide) (by decide)
     (by decide)).2⟩

/-- C5: check_corrupt_config reports exactly the corruption of the file
the transaction currently reads (the Target Path, or the staged copy if
one exists), and when it reports true the coordinator has escalated to
WRITABLE with the staged copy holding the packaged default document while
the Target Path itself is untouched. -/
theorem check_corrupt_config_spec (dflt : List String) (s : Sys)
    (hv : valid_state s = true) :
    (check_corrupt_config dflt s).1 =
      check_corrupt_at (readPath dflt s s.cfgPath) ∧
    ((check_corrupt_config dflt s).1 = true →
      (check_corrupt_config dflt s).2.state = 2 ∧
      (check_corrupt_config dflt s).2.target = s.target ∧
      ∃ n, (check_corrupt_config dflt s).2.tempPath = some n ∧
        (check_corrupt_config dflt s).2.tmps n = some dflt) := by
  have hv1 := raiseLocked_valid s hv
  have hrp : readPath dflt (raise_state_to_locked s)
      (raise_state_to_locked s).cfgPath = readPath dflt s s.cfgPath := by
    rw [(raiseLocked_fields s).2.2.2.1, readPath_raiseLocked]
  rcases hb : check_corrupt_at (readPath dflt s s.cfgPath) with _ | _
  · have heq : check_corrupt_config dflt s =
        (false, raise_state_to_locked s) := by
      rw [check_corrupt_config]
      rw [hrp, hb]
      simp
    rw [heq]
    exact ⟨rfl, by simp⟩
  · have heq : check_corrupt_config dflt s =
        (true, copy_from dflt .defaultCfg (raise_state_to_locked s)) := by
      rw [check_corrupt_config]
      rw [hrp, hb]
      simp
    rw [heq]
    obtain ⟨_, c2, c3, _, _, hex⟩ :=
      copy_from_default_spec dflt (raise_state_to_locked s) hv1
    exact ⟨rfl, fun _ => ⟨c2, c3.trans (raiseLocked_fields s).1, hex⟩⟩

/-- Witness for check_corrupt_config_spec on a Target Path missing the
required marker. -/
theorem check_corrupt_config_spec_witness :
    valid_state (init (some ["no marker here"])) = true ∧
    (check_corrupt_config dflt0 (init (some ["no marker here"]))).1 =
      true ∧
    (check_corrupt_config dflt0 (init (some ["no marker here"]))).2.state =
      2 ∧
    (check_corrupt_config dflt0
      (init (some ["no marker here"]))).2.target = some ["no marker here"] :=
  ⟨by decide, by decide,
   ((check_corrupt_config_spec dflt0 (init (some ["no marker here"]))
     (by decide)).2 (by decide)).1,
   ((check_corrupt_config_spec dflt0 (init (some ["no marker here"]))
     (by decide)).2 (by decide)).2.1⟩

/-- C8: abort from WRITABLE deletes the staged file from disk, leaves the
Target Path unchanged, and returns the coordinator to IDLE with the lock
released; abort when nothing was staged (IDLE or LOCKED, so temp_path is
None) raises instead of silently succeeding. -/
theorem abort_spec (s : Sys) (hv : valid_state s = true) :
    ((s.state = 0 ∨ s.state = 1) → abort s = none) ∧
    (∀ n, s.state = 2 → s.tempPath = some n → (s.tmps n).isSome = true →
      ∃ s1, abort s = some s1 ∧ s1.tmps n = none ∧
        s1.target = s.target ∧ s1.state = 0 ∧ s1.lock = false ∧
        s1.tempPath = none ∧
        s1.events = s.events ++ [Ev.remove (.tmp n)]) := by
  constructor
  · intro h
    have htp : s.tempPath = none := by
      rcases h with h | h
      · simp only [valid_state, h, Bool.and_eq_true, Bool.not_eq_true',
          decide_eq_true_eq] at hv
        exact hv.2
      · simp only [valid_state, h, Bool.and_eq_true,
          decide_eq_true_eq] at hv
        exact hv.2
    rw [abort, htp]
  · intro n h2 htp hsome
    obtain ⟨cc, hcc⟩ := Option.isSome_iff_exists.mp hsome
    have hvr : valid_state
        { s with tmps := fun m => if m = n then none else s.tmps m,
                 events := s.events ++ [Ev.remove (.tmp n)] } = true := hv
    obtain ⟨_, g2, g3, g4, g5, g6, g7, _⟩ := set_state_idle_spec _ hvr
    refine ⟨_, ?_, ?_, g5, g2, g3, g4, g6⟩
    · simp only [abort, htp, hcc]
    · rw [g7]
      simp

/-- Witness for abort_spec: abort after a concrete staged write, and abort
on a fresh transaction. -/
theorem abort_spec_witness :
    valid_state (set_config_value esetApp dflt0 "a" (some "1") .ALL
      (init (some ["x"]))) = true ∧
    abort (init (some ["x"])) = none ∧
    ∃ s1, abort (set_config_value esetApp dflt0 "a" (some "1") .ALL
        (init (some ["x"]))) = some s1 ∧ s1.tmps 0 = none ∧
      s1.target = (set_config_value esetApp dflt0 "a" (some "1") .ALL
        (init (some ["x"]))).target ∧ s1.state = 0 ∧ s1.lock = false ∧
      s1.tempPath = none ∧
      s1.events = (set_config_value esetApp dflt0 "a" (some "1") .ALL
        (init (some ["x"]))).events ++ [Ev.remove (.tmp 0)] :=
  ⟨by decide,
   (abort_spec (init (some ["x"])) (by decide)).1 (Or.inl (by decide)),
   (abort_spec (set_config_value esetApp dflt0 "a" (some "1") .ALL
     (init (some ["x"]))) (by decide)).2 0 (by decide) (by decide)
     (by decide)⟩

end KanoBoot
